import Mathlib

/-!
Verification of the AlpacaPay token-recommendation engine.

This file gives a shallow embedding of the two core modules of the
repository:

* `src/backend/services/tokenScorer.js` — the scoring engine
  (`TokenScorer.scoreTokens`, `_normalizeBalance`, `_generateReasons`);
* the price service (`PriceService.getPriceData`, `_fetchPriceData`)
  with its TTL cache.

JavaScript numbers are embedded as real numbers for the scorer (it uses
`Math.log`) and as rationals for the cache (which only stores and
compares).  The JavaScript expression `x || d` on numbers returns `d`
exactly when `x` is falsy (absent, `NaN`, or `0`); this is modelled by
`TokenScorer.jsOr` over `Option ℝ`, where `none` stands for an absent
field or a `parseFloat` result of `NaN`.
-/

namespace TokenScorer

/-- A wallet token as consumed by `scoreTokens`: its address string and
the result of `parseFloat(token.balance)` (`none` models `NaN`, i.e. a
balance string that does not parse as a number). -/
structure Token where
  address : String
  balance : Option ℝ

/-- One entry of the `priceData` map: `price` and `volatility24h`. -/
structure PriceEntry where
  price : ℝ
  volatility24h : ℝ

/-- One entry of the `slippageData` map: `slippage` and the derived
`estimatedFee`. -/
structure SlipEntry where
  slippage : ℝ
  estimatedFee : ℝ

/-- The `priceData` argument: a JS object keyed by lowercase address. -/
abbrev PriceMap : Type := String → Option PriceEntry

/-- The `slippageData` argument: a JS object keyed by lowercase address. -/
abbrev SlipMap : Type := String → Option SlipEntry

/-- JavaScript `v || d` on an optional numeric field: the default `d` is
taken when the field is absent (or `NaN`, folded into `none`) or `0`,
since `0` is falsy. -/
noncomputable def jsOr (v : Option ℝ) (d : ℝ) : ℝ :=
  match v with
  | none => d
  | some x => if x = 0 then d else x

/-- The fixed weight record from the top of `scoreTokens`. -/
structure Weights where
  balance : ℝ
  volatility : ℝ
  slippage : ℝ

/-- The constant `weights = { balance: 0.4, volatility: 0.3, slippage: 0.3 }`. -/
noncomputable def weights : Weights :=
  { balance := 0.4, volatility := 0.3, slippage := 0.3 }

/-- Source method `_normalizeBalance`: linear ramp `0.3 * (usdBalance / 5)`
below the `minBalance = 5` threshold, `min(1, Math.log(usdBalance) / 5)`
at or above it. -/
noncomputable def _normalizeBalance (usdBalance : ℝ) : ℝ :=
  if usdBalance < 5 then 0.3 * (usdBalance / 5)
  else min 1 (Real.log usdBalance / 5)

/-- JavaScript `x.toFixed(2)`: render with two decimal places (rounding
to the nearest hundredth). -/
noncomputable def toFixed2 (x : ℝ) : String :=
  let n : ℤ := round (x * 100)
  let sign := if n < 0 then "-" else ""
  let m := n.natAbs
  sign ++ toString (m / 100) ++ "." ++
    (if m % 100 < 10 then "0" else "") ++ toString (m % 100)

/-- Source method `_generateReasons`: the ordered reason strings pushed for
balance, volatility and slippage. -/
noncomputable def _generateReasons (usdBalance volatility slippage : ℝ) :
    List String :=
  let balanceReasons : List String :=
    if usdBalance ≥ 100 then
      ["High balance ($" ++ toFixed2 usdBalance ++ ") provides flexibility"]
    else if usdBalance ≥ 20 then
      ["Moderate balance ($" ++ toFixed2 usdBalance ++ ") is sufficient"]
    else
      ["Low balance ($" ++ toFixed2 usdBalance ++ ") may limit options"]
  let volatilityReasons : List String :=
    if volatility < 1 then
      ["Very stable price (" ++ toFixed2 volatility ++ "% 24h change)"]
    else if volatility < 5 then
      ["Stable price (" ++ toFixed2 volatility ++ "% 24h change)"]
    else if volatility > 20 then
      ["High price volatility (" ++ toFixed2 volatility ++ "% 24h change)"]
    else []
  let slippageReasons : List String :=
    if slippage < 0.5 then
      ["Minimal slippage (" ++ toFixed2 slippage ++ "%)"]
    else if slippage > 3 then
      ["High slippage (" ++ toFixed2 slippage ++ "%)"]
    else []
  balanceReasons ++ volatilityReasons ++ slippageReasons

/-- A scored token: the spread `...token` fields plus the derived
fields.  `usdBalance`, `volatilityScore` and `slippageScore` are `none`
on the two short-circuit branches, where the JS object omits them. -/
structure ScoredToken where
  address : String
  balance : Option ℝ
  usdBalance : Option ℝ := none
  volatilityScore : Option ℝ := none
  slippageScore : Option ℝ := none
  score : ℝ
  reasons : List String

/-- The local `balance = parseFloat(token.balance) || 0` of the map
callback in `scoreTokens`. -/
noncomputable def balanceOf (token : Token) : ℝ :=
  jsOr token.balance 0

/-- The local `price = priceData[address]?.price || 0`. -/
noncomputable def priceOf (priceData : PriceMap) (address : String) : ℝ :=
  jsOr ((priceData address).map PriceEntry.price) 0

/-- The local `usdBalance = balance * price`. -/
noncomputable def usdBalanceOf (priceData : PriceMap) (token : Token) : ℝ :=
  balanceOf token * priceOf priceData token.address.toLower

/-- The local `volatility = priceData[address]?.volatility24h || 100`. -/
noncomputable def volatilityOf (priceData : PriceMap) (address : String) : ℝ :=
  jsOr ((priceData address).map PriceEntry.volatility24h) 100

/-- The local `slippage = slippageData[address]?.slippage || 10`. -/
noncomputable def slippageOf (slippageData : SlipMap) (address : String) : ℝ :=
  jsOr ((slippageData address).map SlipEntry.slippage) 10

/-- The body of the `tokens.map` callback in `scoreTokens`: score a
single token against `priceData` and `slippageData`. -/
noncomputable def scoreOne (priceData : PriceMap) (slippageData : SlipMap)
    (token : Token) : ScoredToken :=
  let address := token.address.toLower
  let usdBalance := usdBalanceOf priceData token
  let volatilityScore := 1 - volatilityOf priceData address / 100
  let slippageScore := 1 - slippageOf slippageData address / 10
  if usdBalance ≤ 0 then
    { address := token.address, balance := token.balance,
      score := 0, reasons := ["Zero balance"] }
  else if priceOf priceData address ≤ 0 then
    { address := token.address, balance := token.balance,
      score := 0, reasons := ["No price data available"] }
  else
    { address := token.address, balance := token.balance,
      usdBalance := some usdBalance,
      volatilityScore := some volatilityScore,
      slippageScore := some slippageScore,
      score := weights.balance * _normalizeBalance usdBalance +
               weights.volatility * volatilityScore +
               weights.slippage * slippageScore,
      reasons := _generateReasons usdBalance (volatilityOf priceData address)
                   (slippageOf slippageData address) }

/-- The comparator `(a, b) => b.score - a.score` of the final sort: `a`
may stay before `b` exactly when `b.score ≤ a.score` (descending,
stable on ties). -/
noncomputable def scoreLe (a b : ScoredToken) : Bool :=
  decide (b.score ≤ a.score)

/-- The value returned by `scoreTokens` on a non-empty input:
`sortedTokens[0]` (as `head?`, `undefined` mapping to `none`) and the
whole sorted list. -/
structure ScoreResult where
  recommendedToken : Option ScoredToken
  allScores : List ScoredToken

/-- Source method `scoreTokens`: `null` on an absent or empty token list,
otherwise map `scoreOne` over the tokens, sort descending by score and
return the head together with the full sorted list. -/
noncomputable def scoreTokens (tokens : Option (List Token))
    (priceData : PriceMap) (slippageData : SlipMap) : Option ScoreResult :=
  match tokens with
  | none => none
  | some ts =>
    if ts.length = 0 then none
    else
      let scoredTokens := ts.map (scoreOne priceData slippageData)
      let sortedTokens := scoredTokens.mergeSort scoreLe
      some { recommendedToken := sortedTokens.head?
             allScores := sortedTokens }

end TokenScorer

namespace PriceService

/-- The price cache of `PriceService`: the `Map` holds the plain address
key (a price) and the `address + "_time"` key (a fetch timestamp); since
time keys never collide with address keys, the two are modelled as two
partial maps.  Prices are rationals, timestamps integers in
milliseconds. -/
structure PCache where
  price : String → Option ℚ
  time : String → Option ℤ

/-- The constant `this.cacheTTL = 5 * 60 * 1000` from the constructor. -/
def cacheTTL : ℤ := 5 * 60 * 1000

/-- Truthiness of a cached numeric value: `undefined` and `0` are falsy. -/
def truthyQ (o : Option ℚ) : Bool :=
  match o with
  | none => false
  | some x => decide (x ≠ 0)

/-- Truthiness of a cached timestamp: `undefined` and `0` are falsy. -/
def truthyT (o : Option ℤ) : Bool :=
  match o with
  | none => false
  | some t => decide (t ≠ 0)

/-- The filter predicate of `addressesToFetch` in `_fetchPriceData`:
`!cached || !cacheTime || (Date.now() - cacheTime > this.cacheTTL)`,
with `now` passed explicitly for `Date.now()`. -/
def needsFetch (c : PCache) (ttl now : ℤ) (a : String) : Bool :=
  !truthyQ (c.price a) || !truthyT (c.time a) ||
    decide (now - (c.time a).getD 0 > ttl)

/-- Cache update `priceCache.set(address, price)` together with `priceCache.set(address + "_time", now)`. -/
def updateEntry (c : PCache) (a : String) (p : ℚ) (t : ℤ) : PCache :=
  { price := fun x => if x = a then some p else c.price x
    time := fun x => if x = a then some t else c.time x }

/-- Assignment `result[address] = p` on the result object under construction. -/
def setResult (res : String → Option ℚ) (a : String) (p : ℚ) :
    String → Option ℚ :=
  fun x => if x = a then some p else res x

/-- The second `addresses.forEach` loop of `_fetchPriceData`, threading
the mutated result object and cache: a fresh, truthy cache entry is
served as-is; otherwise the fresh value `fresh a` (modelling
`mockPrices[address] || random`) is stored with timestamp `now` and
returned. -/
def fetchLoop (ttl now : ℤ) (fresh : String → ℚ) :
    List String → (String → Option ℚ) → PCache →
    (String → Option ℚ) × PCache
  | [], res, c => (res, c)
  | a :: rest, res, c =>
    if truthyQ (c.price a) && truthyT (c.time a) &&
        decide (now - (c.time a).getD 0 ≤ ttl) then
      fetchLoop ttl now fresh rest (setResult res a ((c.price a).getD 0)) c
    else
      fetchLoop ttl now fresh rest (setResult res a (fresh a))
        (updateEntry c a (fresh a) now)

/-- Source method `_fetchPriceData`: filter the addresses needing a
fetch; if none, return every address from cache (`get(address) || 0`)
without touching the cache; otherwise run the per-address loop. -/
def _fetchPriceData (ttl now : ℤ) (fresh : String → ℚ) (c : PCache)
    (addresses : List String) : (String → Option ℚ) × PCache :=
  let addressesToFetch := addresses.filter (needsFetch c ttl now)
  if addressesToFetch.length = 0 then
    (fun x => if x ∈ addresses then some ((c.price x).getD 0) else none, c)
  else
    fetchLoop ttl now fresh addresses (fun _ => none) c

/-- The `catch` branch of `PriceService.getPriceData`: on a fetch error,
each requested address gets its cached price and volatility (each
defaulted to `0` via `|| 0`) provided at least one of the two cached
values is truthy, and is omitted otherwise.  `priceVals` and `volVals`
are the value parts of `this.priceCache` and `this.volatilityCache`. -/
def getPriceDataFallback (priceVals volVals : String → Option ℚ)
    (addresses : List String) : String → Option (ℚ × ℚ) :=
  fun x =>
    if x ∈ addresses then
      if truthyQ (priceVals x) || truthyQ (volVals x) then
        some ((priceVals x).getD 0, (volVals x).getD 0)
      else none
    else none

end PriceService

section ConcreteInputs

open TokenScorer PriceService

/-- Empty price map (no entry for any address). -/
def pd0 : PriceMap := fun _ => none

/-- Empty slippage map. -/
def sd0 : SlipMap := fun _ => none

/-- A token with a positive balance, used at price 1 with volatility 150
and slippage 15. -/
def tokA : Token := { address := "0xaaa", balance := some 10 }

/-- Price data giving every address price 1 and 24h volatility 150. -/
def pdA : PriceMap := fun _ => some { price := 1, volatility24h := 150 }

/-- Slippage data giving every address slippage 15. -/
def sdA : SlipMap := fun _ => some { slippage := 15, estimatedFee := 7.5 }

/-- The scored form of `tokA` under `pdA`, `sdA`. -/
noncomputable def sA : ScoredToken := scoreOne pdA sdA tokA

/-- The result of `scoreTokens` on the singleton list `[tokA]`. -/
noncomputable def resA : ScoreResult :=
  { recommendedToken := some sA, allScores := [sA] }

/-- A token with balance 10 used against a price of 0. -/
def tokB : Token := { address := "0xbbb", balance := some 10 }

/-- Price data giving every address price 0 and 24h volatility 5. -/
def pdB : PriceMap := fun _ => some { price := 0, volatility24h := 5 }

/-- Slippage data giving every address slippage 1. -/
def sdB : SlipMap := fun _ => some { slippage := 1, estimatedFee := 0.5 }

/-- A token whose USD balance (200 at price 1) exceeds `exp 5`, the
point where the balance sub-score saturates at 1. -/
def tokC : Token := { address := "0xccc", balance := some 200 }

/-- Price data giving every address price 1 and 24h volatility 0. -/
def pdC : PriceMap := fun _ => some { price := 1, volatility24h := 0 }

/-- Slippage data giving every address slippage 0. -/
def sdC : SlipMap := fun _ => some { slippage := 0, estimatedFee := 0 }

/-- A token whose balance string does not parse (`parseFloat` is `NaN`,
modelled as `none`). -/
def tokN : Token := { address := "0xnnn", balance := none }

/-- The scored form of `tokN` under the empty maps. -/
noncomputable def sN : ScoredToken := scoreOne pd0 sd0 tokN

/-- The result of `scoreTokens` on the singleton list `[tokN]`. -/
noncomputable def resN : ScoreResult :=
  { recommendedToken := some sN, allScores := [sN] }

/-- A concrete price cache holding price 2 fetched at time 1000 for
address `"0xaaa"`. -/
def pcache0 : PCache :=
  { price := fun x => if x = "0xaaa" then some 2 else none
    time := fun x => if x = "0xaaa" then some 1000 else none }

/-- A concrete fetch oracle returning price 3 for every address. -/
def fresh0 : String → ℚ := fun _ => 3

/-- Cached price values for the fallback scenario: address `"0xp"` has
a cached price, addresses `"0xq"`, `"0xr"` have none. -/
def pvals0 : String → Option ℚ := fun x => if x = "0xp" then some 2 else none

/-- Cached volatility values for the fallback scenario: address
`"0xr"` has a cached volatility, the others none. -/
def vvals0 : String → Option ℚ := fun x => if x = "0xr" then some 7 else none

end ConcreteInputs

section Helpers

open TokenScorer PriceService

lemma jsOr_none (d : ℝ) : jsOr none d = d := rfl

lemma jsOr_some_ne {x : ℝ} (d : ℝ) (h : x ≠ 0) : jsOr (some x) d = x := by
  simp [jsOr, h]

lemma jsOr_some_zero (d : ℝ) : jsOr (some 0) d = d := by
  simp [jsOr]

lemma scoreOne_zero_branch (pd : PriceMap) (sd : SlipMap) (t : Token)
    (h : usdBalanceOf pd t ≤ 0) :
    scoreOne pd sd t =
      { address := t.address, balance := t.balance,
        score := 0, reasons := ["Zero balance"] } := by
  simp only [scoreOne]
  rw [if_pos h]

lemma scoreOne_no_price_branch (pd : PriceMap) (sd : SlipMap) (t : Token)
    (h1 : ¬ usdBalanceOf pd t ≤ 0)
    (h2 : priceOf pd t.address.toLower ≤ 0) :
    scoreOne pd sd t =
      { address := t.address, balance := t.balance,
        score := 0, reasons := ["No price data available"] } := by
  simp only [scoreOne]
  rw [if_neg h1, if_pos h2]

lemma scoreOne_main_branch (pd : PriceMap) (sd : SlipMap) (t : Token)
    (h1 : ¬ usdBalanceOf pd t ≤ 0)
    (h2 : ¬ priceOf pd t.address.toLower ≤ 0) :
    scoreOne pd sd t =
      { address := t.address, balance := t.balance,
        usdBalance := some (usdBalanceOf pd t),
        volatilityScore := some (1 - volatilityOf pd t.address.toLower / 100),
        slippageScore := some (1 - slippageOf sd t.address.toLower / 10),
        score := weights.balance * _normalizeBalance (usdBalanceOf pd t) +
                 weights.volatility *
                   (1 - volatilityOf pd t.address.toLower / 100) +
                 weights.slippage *
                   (1 - slippageOf sd t.address.toLower / 10),
        reasons := _generateReasons (usdBalanceOf pd t)
                     (volatilityOf pd t.address.toLower)
                     (slippageOf sd t.address.toLower) } := by
  simp only [scoreOne]
  rw [if_neg h1, if_neg h2]

end Helpers

section Claims

open TokenScorer PriceService

/-- C9: for an absent (`null`/`undefined`) or empty token list,
`scoreTokens` returns `null` rather than throwing; callers branch on
the absent value. -/
theorem scoreTokens_empty_returns_null (priceData : PriceMap)
    (slippageData : SlipMap) :
    scoreTokens none priceData slippageData = none ∧
    scoreTokens (some []) priceData slippageData = none :=
  ⟨rfl, rfl⟩

/-- C4: `scoreTokens` is deterministic — it is a pure function of the
token list, the price data and the slippage data, with no randomness or
clock input, so equal inputs give identical outputs (same ordering, same
scores, same reason strings). -/
theorem scoreTokens_deterministic (t₁ t₂ : Option (List Token))
    (p₁ p₂ : PriceMap) (s₁ s₂ : SlipMap)
    (ht : t₁ = t₂) (hp : p₁ = p₂) (hs : s₁ = s₂) :
    scoreTokens t₁ p₁ s₁ = scoreTokens t₂ p₂ s₂ := by
  rw [ht, hp, hs]

/-- Witness for C4 at a concrete input. -/
theorem scoreTokens_deterministic_witness :
    scoreTokens (some [tokA]) pdA sdA = scoreTokens (some [tokA]) pdA sdA :=
  scoreTokens_deterministic (some [tokA]) (some [tokA]) pdA pdA sdA sdA
    rfl rfl rfl

/-- Counterexample to C1 as stated: for the token `tokB` with balance 10
and price 0 (volatility 5, slippage 1), `usdBalance = 10 * 0 = 0`, so
the zero-balance branch fires first and the single reason is
"Zero balance", not "No price data available". -/
theorem zero_price_reports_zero_balance_cex :
    tokB.balance = some 10 ∧ (0 : ℝ) < 10 ∧
    priceOf pdB tokB.address.toLower = 0 ∧
    (scoreOne pdB sdB tokB).score = 0 ∧
    (scoreOne pdB sdB tokB).reasons = ["Zero balance"] ∧
    (scoreOne pdB sdB tokB).reasons ≠ ["No price data available"] := by
  have hprice : priceOf pdB tokB.address.toLower = 0 := by
    simp [priceOf, pdB, jsOr_some_zero]
  have husd : usdBalanceOf pdB tokB ≤ 0 := by
    rw [usdBalanceOf, hprice, mul_zero]
  have heval := scoreOne_zero_branch pdB sdB tokB husd
  refine ⟨rfl, by norm_num, hprice, ?_, ?_, ?_⟩
  · rw [heval]
  · rw [heval]
  · rw [heval]
    decide

/-- C1 (amended): for every asset whose parsed balance is positive but
whose looked-up price is 0, `scoreTokens` assigns composite score 0 with
the single reason "Zero balance" — the zero-balance branch, since
`usdBalance = balance * price = 0` — regardless of the volatility and
slippage inputs. -/
theorem zero_price_scores_zero_with_zero_balance_reason
    (pd : PriceMap) (sd : SlipMap) (t : Token) (b : ℝ)
    (hb : t.balance = some b) (h0 : 0 < b)
    (hp : priceOf pd t.address.toLower = 0) :
    (scoreOne pd sd t).score = 0 ∧
    (scoreOne pd sd t).reasons = ["Zero balance"] := by
  have husd : usdBalanceOf pd t ≤ 0 := by
    rw [usdBalanceOf, hp, mul_zero]
  rw [scoreOne_zero_branch pd sd t husd]
  exact ⟨rfl, rfl⟩

/-- Witness for the amended C1 at the concrete input `tokB`, `pdB`,
`sdB`. -/
theorem zero_price_scores_zero_with_zero_balance_reason_witness :
    (scoreOne pdB sdB tokB).score = 0 ∧
    (scoreOne pdB sdB tokB).reasons = ["Zero balance"] :=
  zero_price_scores_zero_with_zero_balance_reason pdB sdB tokB 10 rfl
    (by norm_num) (by simp [priceOf, pdB, jsOr_some_zero])

/-- C10: a token whose balance does not parse (`parseFloat` gives `NaN`,
so `|| 0` yields balance 0) is scored 0 with the single reason
"Zero balance"; the `NaN` never reaches the composite score. -/
theorem unparsable_balance_scores_zero (pd : PriceMap) (sd : SlipMap)
    (ts : List Token) (t : Token) (res : ScoreResult)
    (ht : t ∈ ts) (hb : t.balance = none)
    (h : scoreTokens (some ts) pd sd = some res) :
    scoreOne pd sd t ∈ res.allScores ∧
    (scoreOne pd sd t).score = 0 ∧
    (scoreOne pd sd t).reasons = ["Zero balance"] := by
  have husd : usdBalanceOf pd t ≤ 0 := by
    rw [usdBalanceOf, balanceOf, hb, jsOr_none, zero_mul]
  have hne : ¬ ts.length = 0 := by
    simpa [List.length_eq_zero] using List.ne_nil_of_mem ht
  simp only [scoreTokens] at h
  rw [if_neg hne] at h
  have hres := (Option.some.inj h).symm
  refine ⟨?_, ?_, ?_⟩
  · rw [hres]
    exact (List.mergeSort_perm (ts.map (scoreOne pd sd)) scoreLe).mem_iff.mpr
      (List.mem_map_of_mem (scoreOne pd sd) ht)
  · rw [scoreOne_zero_branch pd sd t husd]
  · rw [scoreOne_zero_branch pd sd t husd]

/-- Witness for C10 at the concrete token `tokN` with unparsable
balance. -/
theorem unparsable_balance_scores_zero_witness :
    sN ∈ resN.allScores ∧ sN.score = 0 ∧ sN.reasons = ["Zero balance"] :=
  unparsable_balance_scores_zero pd0 sd0 [tokN] tokN resN
    (by simp) rfl
    (by simp [scoreTokens, List.mergeSort_singleton, resN, sN])

lemma exp_three_lt_25 : Real.exp 3 < 25 := by
  have h := Real.exp_one_lt_d9
  have hp := (Real.exp_pos 1).le
  have e3 : Real.exp 3 = Real.exp 1 * Real.exp 1 * Real.exp 1 := by
    rw [← Real.exp_add, ← Real.exp_add]
    norm_num
  rw [e3]
  nlinarith

lemma exp_three_halves_lt_five : Real.exp (3 / 2) < 5 := by
  have h2 : Real.exp (3 / 2) * Real.exp (3 / 2) = Real.exp 3 := by
    rw [← Real.exp_add]
    norm_num
  have h3 := exp_three_lt_25
  have hp := Real.exp_pos (3 / 2)
  nlinarith

lemma three_halves_lt_log_five : (3 / 2 : ℝ) < Real.log 5 := by
  rw [Real.lt_log_iff_exp_lt (by norm_num : (0:ℝ) < 5)]
  exact exp_three_halves_lt_five

/-- C7: the balance sub-score `_normalizeBalance` is non-decreasing on
nonnegative USD balances, across the linear regime below 5, the
logarithmic regime at or above 5, and the jump at the threshold
(`0.3 < log 5 / 5`). -/
theorem normalizeBalance_monotone (u₁ u₂ : ℝ) (h0 : 0 ≤ u₁)
    (h12 : u₁ ≤ u₂) :
    _normalizeBalance u₁ ≤ _normalizeBalance u₂ := by
  unfold _normalizeBalance
  by_cases h2 : u₂ < 5
  · have h1 : u₁ < 5 := lt_of_le_of_lt h12 h2
    rw [if_pos h1, if_pos h2]
    nlinarith
  · rw [if_neg h2]
    push_neg at h2
    by_cases h1 : u₁ < 5
    · rw [if_pos h1]
      have hlog : (3 / 2 : ℝ) < Real.log u₂ :=
        lt_of_lt_of_le three_halves_lt_log_five
          (Real.log_le_log (by norm_num) h2)
      have hle : 0.3 * (u₁ / 5) ≤ 0.3 := by nlinarith
      have hmin : (0.3 : ℝ) ≤ min 1 (Real.log u₂ / 5) :=
        le_min (by norm_num) (by linarith)
      linarith
    · rw [if_neg h1]
      push_neg at h1
      have hpos : (0 : ℝ) < u₁ := lt_of_lt_of_le (by norm_num) h1
      have hlog := Real.log_le_log hpos h12
      exact min_le_min le_rfl (by linarith)

/-- Witness for C7 at the concrete pair 2 ≤ 3. -/
theorem normalizeBalance_monotone_witness :
    (0 : ℝ) ≤ 2 ∧ (2 : ℝ) ≤ 3 ∧
    _normalizeBalance 2 ≤ _normalizeBalance 3 :=
  ⟨by norm_num, by norm_num,
    normalizeBalance_monotone 2 3 (by norm_num) (by norm_num)⟩

lemma exp_five_lt_200 : Real.exp 5 < 200 := by
  have h : Real.exp 1 < 2.7182818286 := Real.exp_one_lt_d9
  have hp : (0 : ℝ) ≤ Real.exp 1 := (Real.exp_pos 1).le
  have a2 : Real.exp 1 * Real.exp 1 = Real.exp 2 := by
    rw [← Real.exp_add]
    norm_num
  have a4 : Real.exp 2 * Real.exp 2 = Real.exp 4 := by
    rw [← Real.exp_add]
    norm_num
  have a5 : Real.exp 4 * Real.exp 1 = Real.exp 5 := by
    rw [← Real.exp_add]
    norm_num
  have h2 : Real.exp 2 < 7.39 := by
    rw [← a2]
    nlinarith
  have hp2 : (0 : ℝ) ≤ Real.exp 2 := (Real.exp_pos 2).le
  have h4 : Real.exp 4 < 54.7 := by
    rw [← a4]
    nlinarith
  have hp4 : (0 : ℝ) ≤ Real.exp 4 := (Real.exp_pos 4).le
  rw [← a5]
  nlinarith

/-- C2 (code_bug): the three weights sum to exactly 1, and `tokC` is a
"perfect" asset (`usdBalance = 200 ≥ exp 5`, so the balance sub-score is
exactly 1; `volatility24h = 0`; `slippage = 0`) — yet its composite
score is 0.4, not 1, because the JS defaults `volatility24h || 100` and
`slippage || 10` treat the falsy value 0 as missing data, contradicting
the adjacent comments "0% volatility = 1.0 score" and "0% slippage =
1.0 score". -/
theorem weights_sum_and_perfect_asset :
    weights.balance + weights.volatility + weights.slippage = 1 ∧
    Real.exp 5 ≤ usdBalanceOf pdC tokC ∧
    _normalizeBalance (usdBalanceOf pdC tokC) = 1 ∧
    (scoreOne pdC sdC tokC).score = 0.4 ∧
    (scoreOne pdC sdC tokC).score ≠ 1 := by
  have husd : usdBalanceOf pdC tokC = 200 := by
    rw [usdBalanceOf, balanceOf, priceOf]
    simp only [tokC, pdC, Option.map_some']
    rw [jsOr_some_ne 0 (by norm_num), jsOr_some_ne 0 (by norm_num)]
    norm_num
  have hnb : _normalizeBalance (200 : ℝ) = 1 := by
    unfold _normalizeBalance
    rw [if_neg (by norm_num : ¬ (200 : ℝ) < 5)]
    have h5 : (5 : ℝ) < Real.log 200 := by
      rw [Real.lt_log_iff_exp_lt (by norm_num : (0 : ℝ) < 200)]
      exact exp_five_lt_200
    rw [min_eq_left (by linarith)]
  have hpr : priceOf pdC tokC.address.toLower = 1 := by
    rw [priceOf]
    simp only [pdC, Option.map_some']
    rw [jsOr_some_ne 0 (by norm_num)]
  have hvol : volatilityOf pdC tokC.address.toLower = 100 := by
    rw [volatilityOf]
    simp only [pdC, Option.map_some']
    rw [jsOr_some_zero]
  have hsl : slippageOf sdC tokC.address.toLower = 10 := by
    rw [slippageOf]
    simp only [sdC, Option.map_some']
    rw [jsOr_some_zero]
  have heval := scoreOne_main_branch pdC sdC tokC
    (by rw [husd]; norm_num) (by rw [hpr]; norm_num)
  have hscore : (scoreOne pdC sdC tokC).score = 0.4 := by
    rw [heval]
    show weights.balance * _normalizeBalance (usdBalanceOf pdC tokC) +
      weights.volatility * (1 - volatilityOf pdC tokC.address.toLower / 100) +
      weights.slippage * (1 - slippageOf sdC tokC.address.toLower / 10) = 0.4
    rw [husd, hnb, hvol, hsl]
    norm_num [weights]
  exact ⟨by norm_num [weights], by rw [husd]; linarith [exp_five_lt_200],
    by rw [husd]; exact hnb, hscore, by rw [hscore]; norm_num⟩

/-- C8: the volatility sub-score `1 - volatility24h/100` is not clamped
below 0 — for an asset with positive balance and price, volatility above
100 makes it negative and it enters the composite as-is; likewise the
slippage sub-score `1 - slippage/10` is negative for slippage above
10. -/
theorem negative_subscores_not_clamped (pd : PriceMap) (sd : SlipMap)
    (t : Token) (b : ℝ) (e : PriceEntry) (se : SlipEntry)
    (hb : t.balance = some b) (h0 : 0 < b)
    (he : pd t.address.toLower = some e) (hprice : 0 < e.price)
    (hvol : 100 < e.volatility24h)
    (hse : sd t.address.toLower = some se) (hsl : 10 < se.slippage) :
    (scoreOne pd sd t).volatilityScore = some (1 - e.volatility24h / 100) ∧
    1 - e.volatility24h / 100 < 0 ∧
    (scoreOne pd sd t).slippageScore = some (1 - se.slippage / 10) ∧
    1 - se.slippage / 10 < 0 := by
  have hbal : balanceOf t = b := by
    rw [balanceOf, hb, jsOr_some_ne 0 (ne_of_gt h0)]
  have hpr : priceOf pd t.address.toLower = e.price := by
    rw [priceOf, he, Option.map_some']
    exact jsOr_some_ne 0 (ne_of_gt hprice)
  have h1 : ¬ usdBalanceOf pd t ≤ 0 := by
    rw [usdBalanceOf, hbal, hpr]
    exact not_le.mpr (mul_pos h0 hprice)
  have h2 : ¬ priceOf pd t.address.toLower ≤ 0 := by
    rw [hpr]
    exact not_le.mpr hprice
  have hv : volatilityOf pd t.address.toLower = e.volatility24h := by
    rw [volatilityOf, he, Option.map_some']
    exact jsOr_some_ne 100 (by linarith)
  have hs : slippageOf sd t.address.toLower = se.slippage := by
    rw [slippageOf, hse, Option.map_some']
    exact jsOr_some_ne 10 (by linarith)
  rw [scoreOne_main_branch pd sd t h1 h2]
  refine ⟨by rw [hv], by linarith, by rw [hs], by linarith⟩

/-- Witness for C8 at `tokA` with volatility 150 (sub-score exactly
−0.5) and slippage 15. -/
theorem negative_subscores_not_clamped_witness :
    (scoreOne pdA sdA tokA).volatilityScore = some (1 - 150 / 100) ∧
    1 - (150 : ℝ) / 100 < 0 ∧
    (scoreOne pdA sdA tokA).slippageScore = some (1 - 15 / 10) ∧
    1 - (15 : ℝ) / 10 < 0 ∧
    (1 - (150 : ℝ) / 100) = -0.5 := by
  have h := negative_subscores_not_clamped pdA sdA tokA 10
    { price := 1, volatility24h := 150 } { slippage := 15, estimatedFee := 7.5 }
    rfl (by norm_num) rfl (by norm_num) (by norm_num) rfl (by norm_num)
  exact ⟨h.1, h.2.1, h.2.2.1, h.2.2.2, by norm_num⟩

lemma scoreLe_trans : ∀ (a b c : ScoredToken),
    scoreLe a b = true → scoreLe b c = true → scoreLe a c = true := by
  intro a b c hab hbc
  simp only [scoreLe, decide_eq_true_eq] at hab hbc ⊢
  exact le_trans hbc hab

lemma scoreLe_total : ∀ (a b : ScoredToken),
    (scoreLe a b || scoreLe b a) = true := by
  intro a b
  simp only [scoreLe, Bool.or_eq_true, decide_eq_true_eq]
  exact le_total b.score a.score

lemma head_max_of_pairwise {l : List ScoredToken}
    (hp : l.Pairwise fun a b => b.score ≤ a.score) {r : ScoredToken}
    (hr : l.head? = some r) : ∀ x ∈ l, x.score ≤ r.score := by
  cases l with
  | nil => cases hr
  | cons y ys =>
    have hy : y = r := by simpa using hr
    subst hy
    intro x hx
    rcases List.mem_cons.mp hx with rfl | h
    · exact le_rfl
    · exact (List.pairwise_cons.mp hp).1 x h

/-- C3: whenever `scoreTokens` returns a result, `allScores` is the
scored token list sorted in descending order of composite score, the
recommended token is its head, and so every scored asset has score at
most the recommended score. -/
theorem scoreTokens_sorted_descending (ts : List Token) (pd : PriceMap)
    (sd : SlipMap) (res : ScoreResult)
    (h : scoreTokens (some ts) pd sd = some res) :
    res.allScores.Perm (ts.map (scoreOne pd sd)) ∧
    res.allScores.Pairwise (fun a b => b.score ≤ a.score) ∧
    res.recommendedToken = res.allScores.head? ∧
    ∀ x ∈ res.allScores, ∀ r, res.recommendedToken = some r →
      x.score ≤ r.score := by
  simp only [scoreTokens] at h
  by_cases hlen : ts.length = 0
  · rw [if_pos hlen] at h
    cases h
  · rw [if_neg hlen] at h
    have hres := (Option.some.inj h).symm
    subst hres
    have hpair : ((ts.map (scoreOne pd sd)).mergeSort scoreLe).Pairwise
        (fun a b => b.score ≤ a.score) :=
      (List.sorted_mergeSort scoreLe_trans scoreLe_total
        (ts.map (scoreOne pd sd))).imp
        (fun hab => by simpa [scoreLe, decide_eq_true_eq] using hab)
    refine ⟨List.mergeSort_perm _ _, hpair, rfl, ?_⟩
    intro x hx r hr
    exact head_max_of_pairwise hpair hr x hx

/-- Witness for C3 on the singleton list `[tokA]`. -/
theorem scoreTokens_sorted_descending_witness :
    resA.allScores.Pairwise (fun a b => b.score ≤ a.score) ∧
    resA.recommendedToken = resA.allScores.head? ∧
    sA ∈ resA.allScores ∧ sA.score ≤ sA.score := by
  have h := scoreTokens_sorted_descending [tokA] pdA sdA resA
    (by simp [scoreTokens, List.mergeSort_singleton, resA, sA])
  exact ⟨h.2.1, h.2.2.1, by simp [resA],
    h.2.2.2 sA (by simp [resA]) sA rfl⟩

lemma fetchLoop_fresh (ttl now : ℤ) (fresh : String → ℚ) (a : String)
    (p : ℚ) (T : ℤ) (hp0 : p ≠ 0) (hT0 : T ≠ 0) (hfr : now - T ≤ ttl) :
    ∀ (l : List String) (res : String → Option ℚ) (c : PCache),
      c.price a = some p → c.time a = some T →
      (fetchLoop ttl now fresh l res c).2.price a = some p ∧
      (fetchLoop ttl now fresh l res c).2.time a = some T ∧
      (fetchLoop ttl now fresh l res c).1 a =
        (if a ∈ l then some p else res a) := by
  intro l
  induction l with
  | nil =>
    intro res c hp ht
    simp [fetchLoop, hp, ht]
  | cons b rest ih =>
    intro res c hp ht
    by_cases hba : b = a
    · subst hba
      have hcond : (truthyQ (c.price b) && truthyT (c.time b) &&
          decide (now - (c.time b).getD 0 ≤ ttl)) = true := by
        simp [truthyQ, truthyT, hp, ht, hp0, hT0, hfr]
      simp only [fetchLoop]
      rw [if_pos hcond]
      have hres := ih (setResult res b ((c.price b).getD 0)) c hp ht
      refine ⟨hres.1, hres.2.1, ?_⟩
      rw [hres.2.2]
      have hset : setResult res b ((c.price b).getD 0) b = some p := by
        simp [setResult, hp]
      by_cases hmem : b ∈ rest
      · simp [hmem]
      · simp [hmem, hset]
    · have hab : a ≠ b := fun h => hba h.symm
      have hiff : (a ∈ b :: rest) ↔ (a ∈ rest) := by
        simp [List.mem_cons, hab]
      cases hcond : (truthyQ (c.price b) && truthyT (c.time b) &&
          decide (now - (c.time b).getD 0 ≤ ttl)) with
      | false =>
        simp only [fetchLoop]
        rw [if_neg (by rw [hcond]; simp)]
        have hp2 : (updateEntry c b (fresh b) now).price a = some p := by
          simp [updateEntry, hab, hp]
        have ht2 : (updateEntry c b (fresh b) now).time a = some T := by
          simp [updateEntry, hab, ht]
        have hres := ih (setResult res b (fresh b))
          (updateEntry c b (fresh b) now) hp2 ht2
        refine ⟨hres.1, hres.2.1, ?_⟩
        rw [hres.2.2]
        have hr2 : setResult res b (fresh b) a = res a := by
          simp [setResult, hab]
        rw [hr2]
        exact (if_congr hiff rfl rfl).symm
      | true =>
        simp only [fetchLoop]
        rw [if_pos hcond]
        have hres := ih (setResult res b ((c.price b).getD 0)) c hp ht
        refine ⟨hres.1, hres.2.1, ?_⟩
        rw [hres.2.2]
        have hr2 : setResult res b ((c.price b).getD 0) a = res a := by
          simp [setResult, hab]
        rw [hr2]
        exact (if_congr hiff rfl rfl).symm

lemma fetchLoop_after (ttl now : ℤ) (fresh : String → ℚ) (a : String) :
    ∀ (l : List String) (res : String → Option ℚ) (c : PCache),
      c.price a = some (fresh a) → c.time a = some now →
      res a = some (fresh a) →
      (fetchLoop ttl now fresh l res c).1 a = some (fresh a) ∧
      (fetchLoop ttl now fresh l res c).2.price a = some (fresh a) ∧
      (fetchLoop ttl now fresh l res c).2.time a = some now := by
  intro l
  induction l with
  | nil =>
    intro res c hp ht hr
    simpa [fetchLoop] using ⟨hr, hp, ht⟩
  | cons b rest ih =>
    intro res c hp ht hr
    by_cases hba : b = a
    · subst hba
      cases hcond : (truthyQ (c.price b) && truthyT (c.time b) &&
          decide (now - (c.time b).getD 0 ≤ ttl)) with
      | false =>
        simp only [fetchLoop]
        rw [if_neg (by rw [hcond]; simp)]
        exact ih _ _ (by simp [updateEntry]) (by simp [updateEntry])
          (by simp [setResult])
      | true =>
        simp only [fetchLoop]
        rw [if_pos hcond]
        exact ih _ _ hp ht (by simp [setResult, hp])
    · have hab : a ≠ b := fun h => hba h.symm
      cases hcond : (truthyQ (c.price b) && truthyT (c.time b) &&
          decide (now - (c.time b).getD 0 ≤ ttl)) with
      | false =>
        simp only [fetchLoop]
        rw [if_neg (by rw [hcond]; simp)]
        exact ih _ _ (by simp [updateEntry, hab, hp])
          (by simp [updateEntry, hab, ht]) (by simp [setResult, hab, hr])
      | true =>
        simp only [fetchLoop]
        rw [if_pos hcond]
        exact ih _ _ hp ht (by simp [setResult, hab, hr])

lemma fetchLoop_stale (ttl now : ℤ) (fresh : String → ℚ) (a : String)
    (p : ℚ) (T : ℤ) (hstale : ttl < now - T) :
    ∀ (l : List String) (res : String → Option ℚ) (c : PCache),
      c.price a = some p → c.time a = some T → a ∈ l →
      (fetchLoop ttl now fresh l res c).1 a = some (fresh a) ∧
      (fetchLoop ttl now fresh l res c).2.price a = some (fresh a) ∧
      (fetchLoop ttl now fresh l res c).2.time a = some now := by
  intro l
  induction l with
  | nil =>
    intro res c hp ht hmem
    exact absurd hmem (List.not_mem_nil a)
  | cons b rest ih =>
    intro res c hp ht hmem
    by_cases hba : b = a
    · subst hba
      have hcond : (truthyQ (c.price b) && truthyT (c.time b) &&
          decide (now - (c.time b).getD 0 ≤ ttl)) = false := by
        simp [ht]
        omega
      simp only [fetchLoop]
      rw [if_neg (by rw [hcond]; simp)]
      exact fetchLoop_after ttl now fresh b rest _ _
        (by simp [updateEntry]) (by simp [updateEntry]) (by simp [setResult])
    · have hab : a ≠ b := fun h => hba h.symm
      have hmem2 : a ∈ rest := by
        rcases List.mem_cons.mp hmem with h | h
        · exact absurd h hab
        · exact h
      cases hcond : (truthyQ (c.price b) && truthyT (c.time b) &&
          decide (now - (c.time b).getD 0 ≤ ttl)) with
      | false =>
        simp only [fetchLoop]
        rw [if_neg (by rw [hcond]; simp)]
        exact ih _ _ (by simp [updateEntry, hab, hp])
          (by simp [updateEntry, hab, ht]) hmem2
      | true =>
        simp only [fetchLoop]
        rw [if_pos hcond]
        exact ih _ _ hp ht hmem2

/-- C5: a price-cache entry stored at time `T` (nonzero price and
timestamp, as all stored entries are) is, for a request at `T + Δ` with
`Δ < TTL`, served from the cache — the address is not selected for
re-fetch, the returned price is the cached one, and the entry is left
untouched — while a request at `T + TTL + 1` selects the address for
re-fetch, returns the freshly fetched price and overwrites the entry
timestamp. -/
theorem cache_freshness (ttl Δ T : ℤ) (fresh : String → ℚ) (c : PCache)
    (addrs : List String) (a : String) (p : ℚ)
    (hp : c.price a = some p) (hp0 : p ≠ 0)
    (ht : c.time a = some T) (hT0 : T ≠ 0)
    (ha : a ∈ addrs) (hΔ : Δ < ttl) :
    (needsFetch c ttl (T + Δ) a = false ∧
     (_fetchPriceData ttl (T + Δ) fresh c addrs).1 a = some p ∧
     (_fetchPriceData ttl (T + Δ) fresh c addrs).2.price a = some p ∧
     (_fetchPriceData ttl (T + Δ) fresh c addrs).2.time a = some T) ∧
    (needsFetch c ttl (T + ttl + 1) a = true ∧
     a ∈ addrs.filter (needsFetch c ttl (T + ttl + 1)) ∧
     (_fetchPriceData ttl (T + ttl + 1) fresh c addrs).1 a =
       some (fresh a) ∧
     (_fetchPriceData ttl (T + ttl + 1) fresh c addrs).2.time a =
       some (T + ttl + 1)) := by
  constructor
  · have hnf : needsFetch c ttl (T + Δ) a = false := by
      simp [needsFetch, truthyQ, truthyT, hp, ht, hp0, hT0]
      omega
    refine ⟨hnf, ?_⟩
    by_cases hfe : (addrs.filter (needsFetch c ttl (T + Δ))).length = 0
    · simp only [_fetchPriceData]
      rw [if_pos hfe]
      exact ⟨by simp [ha, hp], hp, ht⟩
    · simp only [_fetchPriceData]
      rw [if_neg hfe]
      have hres := fetchLoop_fresh ttl (T + Δ) fresh a p T hp0 hT0
        (by omega) addrs (fun _ => none) c hp ht
      exact ⟨by rw [hres.2.2]; simp [ha], hres.1, hres.2.1⟩
  · have hnf : needsFetch c ttl (T + ttl + 1) a = true := by
      simp [needsFetch, truthyQ, truthyT, hp, ht, hp0, hT0]
      omega
    have hmemf : a ∈ addrs.filter (needsFetch c ttl (T + ttl + 1)) :=
      List.mem_filter.mpr ⟨ha, hnf⟩
    have hfe : ¬ (addrs.filter (needsFetch c ttl (T + ttl + 1))).length = 0 := by
      intro hlen
      rw [List.length_eq_zero] at hlen
      rw [hlen] at hmemf
      exact absurd hmemf (List.not_mem_nil a)
    refine ⟨hnf, hmemf, ?_, ?_⟩
    · simp only [_fetchPriceData]
      rw [if_neg hfe]
      exact (fetchLoop_stale ttl (T + ttl + 1) fresh a p T (by omega)
        addrs (fun _ => none) c hp ht ha).1
    · simp only [_fetchPriceData]
      rw [if_neg hfe]
      exact (fetchLoop_stale ttl (T + ttl + 1) fresh a p T (by omega)
        addrs (fun _ => none) c hp ht ha).2.2

/-- Witness for C5 on a one-entry cache with the TTL from the source
(`5 * 60 * 1000` ms), entry stored at `T = 1000`, probed at `Δ = 1`. -/
theorem cache_freshness_witness :
    (needsFetch pcache0 cacheTTL (1000 + 1) "0xaaa" = false ∧
     (_fetchPriceData cacheTTL (1000 + 1) fresh0 pcache0 ["0xaaa"]).1
       "0xaaa" = some 2 ∧
     (_fetchPriceData cacheTTL (1000 + 1) fresh0 pcache0 ["0xaaa"]).2.price
       "0xaaa" = some 2 ∧
     (_fetchPriceData cacheTTL (1000 + 1) fresh0 pcache0 ["0xaaa"]).2.time
       "0xaaa" = some 1000) ∧
    (needsFetch pcache0 cacheTTL (1000 + cacheTTL + 1) "0xaaa" = true ∧
     "0xaaa" ∈ ["0xaaa"].filter (needsFetch pcache0 cacheTTL
       (1000 + cacheTTL + 1)) ∧
     (_fetchPriceData cacheTTL (1000 + cacheTTL + 1) fresh0 pcache0
       ["0xaaa"]).1 "0xaaa" = some (fresh0 "0xaaa") ∧
     (_fetchPriceData cacheTTL (1000 + cacheTTL + 1) fresh0 pcache0
       ["0xaaa"]).2.time "0xaaa" = some (1000 + cacheTTL + 1)) :=
  cache_freshness cacheTTL 1 1000 fresh0 pcache0 ["0xaaa"] "0xaaa" 2
    (by simp [pcache0]) (by norm_num) (by simp [pcache0]) (by norm_num)
    (by simp) (by norm_num [cacheTTL])

/-- C6: on a fetch failure, the `catch` branch of `getPriceData` serves
each requested identifier from the caches regardless of staleness — a
cached (hence nonzero) price is returned as-is, a cached volatility is
returned even without a price — and omits an identifier with no cached
value at all; the call returns this degraded mapping instead of
failing. -/
theorem fallback_serves_cached_and_omits_uncached
    (priceVals volVals : String → Option ℚ) (addrs : List String)
    (a₁ a₂ a₃ : String) (p v : ℚ)
    (h₁ : a₁ ∈ addrs) (hp₁ : priceVals a₁ = some p) (hp₁0 : p ≠ 0)
    (h₂ : a₂ ∈ addrs) (hp₂ : priceVals a₂ = none) (hv₂ : volVals a₂ = none)
    (h₃ : a₃ ∈ addrs) (hp₃ : priceVals a₃ = none) (hv₃ : volVals a₃ = some v)
    (hv₃0 : v ≠ 0) :
    getPriceDataFallback priceVals volVals addrs a₁ =
      some (p, (volVals a₁).getD 0) ∧
    getPriceDataFallback priceVals volVals addrs a₂ = none ∧
    getPriceDataFallback priceVals volVals addrs a₃ = some (0, v) := by
  refine ⟨?_, ?_, ?_⟩
  · simp [getPriceDataFallback, h₁, truthyQ, hp₁, hp₁0]
  · simp [getPriceDataFallback, h₂, truthyQ, hp₂, hv₂]
  · simp [getPriceDataFallback, h₃, truthyQ, hp₃, hv₃, hv₃0]

/-- Witness for C6 on concrete caches: `"0xp"` has a cached price,
`"0xq"` has nothing cached, `"0xr"` has only a cached volatility. -/
theorem fallback_serves_cached_and_omits_uncached_witness :
    getPriceDataFallback pvals0 vvals0 ["0xp", "0xq", "0xr"] "0xp" =
      some (2, (vvals0 "0xp").getD 0) ∧
    getPriceDataFallback pvals0 vvals0 ["0xp", "0xq", "0xr"] "0xq" = none ∧
    getPriceDataFallback pvals0 vvals0 ["0xp", "0xq", "0xr"] "0xr" =
      some (0, 7) :=
  fallback_serves_cached_and_omits_uncached pvals0 vvals0
    ["0xp", "0xq", "0xr"] "0xp" "0xq" "0xr" 2 7
    (by simp) (by simp [pvals0]) (by norm_num)
    (by simp) (by simp [pvals0]) (by simp [vvals0])
    (by simp) (by simp [pvals0]) (by simp [vvals0]) (by norm_num)

end Claims
